import Mathlib

set_option maxRecDepth 8000

/-!
Shallow embedding of the UFS2ARCO dataset pipeline
(`src/UFS2ARCO/ufsdataset.py`, `src/UFS2ARCO/fv3dataset.py`,
`scripts/read_from_s3.py`, `src/UFS2ARCO/replay_to_zarr_example.py`).

Timestamps: a `numpy.datetime64` value at second resolution is embedded as an
`Int` (seconds since 1970-01-01T00:00:00 in the proleptic Gregorian calendar,
which is the linear scale numpy uses).  Field access (`t.dt.year`, ...) is the
Gregorian civil-calendar extraction `fieldsOfSeconds`; `numpy.datetime64`
applied to a Python `datetime(y, mo, d, h, mi, s)` is `secondsOfFields`
(guarded by the `datetime` constructor's validity check).  A
`cftime.DatetimeJulian` object stores its calendar fields verbatim, so it is
embedded as the field record itself, with the constructor's calendar-validity
check (`has_year_zero=False`).
-/

/-- Calendar fields of one timestamp: what Python's `datetime` and cftime's
`DatetimeJulian` carry (at second resolution). -/
structure CalFields where
  year : Int
  month : Nat
  day : Nat
  hour : Nat
  minute : Nat
  second : Nat
deriving DecidableEq, Repr

/-- Days (counted from March 1) that precede year-of-era `q` inside a 400-year
Gregorian era: 365 per year plus the leap days among years `0..q-1`. -/
def dpred (q : Nat) : Nat := 365 * q + q / 4 - q / 100

/-- Days that precede shifted month `mp` (0 = March .. 11 = February) inside a
March-based year. -/
def mcum (mp : Nat) : Nat := (153 * mp + 2) / 5

/-- Largest `q ≤ n` with `f q ≤ x` (and `0` when there is none). -/
def lastLE (f : Nat → Nat) (x : Nat) : Nat → Nat
  | 0 => 0
  | n + 1 => if f (n + 1) ≤ x then n + 1 else lastLE f x n

theorem lastLE_le (f : Nat → Nat) (x n : Nat) : lastLE f x n ≤ n := by
  induction n with
  | zero => simp [lastLE]
  | succ n ih =>
    simp only [lastLE]
    split
    · exact Nat.le_refl _
    · exact Nat.le_trans ih (Nat.le_succ n)

theorem lastLE_property (f : Nat → Nat) (x n : Nat) (h0 : f 0 ≤ x) :
    f (lastLE f x n) ≤ x := by
  induction n with
  | zero => simpa [lastLE]
  | succ n ih =>
    simp only [lastLE]
    split
    · assumption
    · exact ih

theorem lastLE_succ_gt (f : Nat → Nat) (x n : Nat)
    (h : lastLE f x n < n) : x < f (lastLE f x n + 1) := by
  induction n with
  | zero => exact absurd h (Nat.not_lt_zero _)
  | succ n ih =>
    revert h
    simp only [lastLE]
    split
    · intro h
      exact absurd h (Nat.lt_irrefl _)
    · intro _
      rcases Nat.lt_or_ge (lastLE f x n) n with hlt | hge
      · exact ih hlt
      · have heq : lastLE f x n = n := Nat.le_antisymm (lastLE_le f x n) hge
        rw [heq]
        omega

/-- Year of era (0..399) in which day-of-era `doe` falls. -/
def yoeOf (doe : Nat) : Nat := lastLE dpred doe 399

/-- Day of (March-based) year for day-of-era `doe`. -/
def doyOf (doe : Nat) : Nat := doe - dpred (yoeOf doe)

/-- Shifted month (0 = March .. 11 = February) of day-of-era `doe`. -/
def mpOf (doe : Nat) : Nat := lastLE mcum (doyOf doe) 11

/-- Day of month (1-based) of day-of-era `doe`. -/
def dayOf (doe : Nat) : Nat := doyOf doe - mcum (mpOf doe) + 1

/-- Civil month (1..12) of day-of-era `doe`. -/
def monthOf (doe : Nat) : Nat := if mpOf doe < 10 then mpOf doe + 3 else mpOf doe - 9

/-- Gregorian civil date of day number `z` (days since 1970-01-01): the
extraction numpy performs for `.dt.year` / `.dt.month` / `.dt.day`. -/
def fieldsOfDays (z : Int) : Int × Nat × Nat :=
  let era := (z + 719468) / 146097
  let doe := ((z + 719468) % 146097).toNat
  (era * 400 + yoeOf doe + (if monthOf doe ≤ 2 then 1 else 0), monthOf doe, dayOf doe)

/-- Day number (days since 1970-01-01) of a Gregorian civil date: the
linearization behind `numpy.datetime64(datetime(y, m, d, ...))`. -/
def daysFromCivil (y : Int) (m d : Nat) : Int :=
  let yy := y - (if m ≤ 2 then 1 else 0)
  let era := yy / 400
  let yoe := (yy % 400).toNat
  let mp := if 3 ≤ m then m - 3 else m + 9
  era * 146097 + ((dpred yoe + (mcum mp + (d - 1)) : Nat) : Int) - 719468

example : fieldsOfDays 0 = (1970, 1, 1) := by decide
example : fieldsOfDays 19723 = (2024, 1, 1) := by decide
example : daysFromCivil 2024 1 1 = 19723 := by decide
example : fieldsOfDays 11016 = (2000, 2, 29) := by decide
example : daysFromCivil 2000 2 29 = 11016 := by decide
example : fieldsOfDays (-719468) = (0, 3, 1) := by decide

theorem dpred_succ_le (q : Nat) : dpred (q + 1) ≤ dpred q + 366 := by
  unfold dpred
  omega

theorem yoe_le (doe : Nat) : yoeOf doe ≤ 399 := lastLE_le dpred doe 399

theorem mp_le (doe : Nat) : mpOf doe ≤ 11 := lastLE_le mcum (doyOf doe) 11

/-- The year scan is correct: `doe` lies in the span of year `yoeOf doe`. -/
theorem year_reconstruct (doe : Nat) (h : doe ≤ 146096) :
    dpred (yoeOf doe) + doyOf doe = doe ∧ doyOf doe ≤ 365 := by
  have h0 : dpred 0 ≤ doe := by simp [dpred]
  have hle : dpred (yoeOf doe) ≤ doe := lastLE_property dpred doe 399 h0
  have hb : yoeOf doe ≤ 399 := yoe_le doe
  have hstep : dpred (yoeOf doe + 1) ≤ dpred (yoeOf doe) + 366 := dpred_succ_le _
  have h399 : dpred 399 = 145731 := by decide
  unfold doyOf
  rcases Nat.lt_or_ge (yoeOf doe) 399 with hlt | hge
  · have hgt : doe < dpred (yoeOf doe + 1) := lastLE_succ_gt dpred doe 399 hlt
    omega
  · have heq : yoeOf doe = 399 := Nat.le_antisymm hb hge
    rw [heq] at hle ⊢
    omega

/-- The month scan is correct: the day of year splits into whole months plus
the day of month. -/
theorem day_reconstruct (doe : Nat) :
    mcum (mpOf doe) + (dayOf doe - 1) = doyOf doe := by
  have h0 : mcum 0 ≤ doyOf doe := by simp [mcum]
  have hle : mcum (mpOf doe) ≤ doyOf doe := lastLE_property mcum (doyOf doe) 11 h0
  unfold dayOf
  omega

theorem mpBack_monthOf (doe : Nat) :
    (if 3 ≤ monthOf doe then monthOf doe - 3 else monthOf doe + 9) = mpOf doe := by
  have hle : mpOf doe ≤ 11 := mp_le doe
  unfold monthOf
  rcases Nat.lt_or_ge (mpOf doe) 10 with hc | hc
  · rw [if_pos hc, if_pos (by omega : 3 ≤ mpOf doe + 3)]
    omega
  · rw [if_neg (Nat.not_lt.mpr hc), if_neg (by omega : ¬ 3 ≤ mpOf doe - 9)]
    omega

theorem monthOf_le2_iff (doe : Nat) : monthOf doe ≤ 2 ↔ 10 ≤ mpOf doe := by
  have hle : mpOf doe ≤ 11 := mp_le doe
  unfold monthOf
  rcases Nat.lt_or_ge (mpOf doe) 10 with hc | hc
  · rw [if_pos hc]
    omega
  · rw [if_neg (Nat.not_lt.mpr hc)]
    omega

/-- Round trip of the civil-calendar day split: reconstructing the day number
from the extracted year, month and day gives back the day number. -/
theorem daysFromCivil_fieldsOfDays (z : Int) :
    daysFromCivil (fieldsOfDays z).1 (fieldsOfDays z).2.1 (fieldsOfDays z).2.2 = z := by
  have hdoe : ((z + 719468) % 146097).toNat ≤ 146096 := by omega
  set era := (z + 719468) / 146097 with heradef
  set doe := ((z + 719468) % 146097).toNat with hdoedef
  have hz : (z + 719468) = era * 146097 + (doe : Int) := by omega
  obtain ⟨h1, hdoy⟩ := year_reconstruct doe hdoe
  have h2 := day_reconstruct doe
  have h3 := mpBack_monthOf doe
  have h4 := monthOf_le2_iff doe
  have hyoe : yoeOf doe ≤ 399 := lastLE_le _ _ _
  have hfields : fieldsOfDays z =
      (era * 400 + yoeOf doe + (if monthOf doe ≤ 2 then 1 else 0), monthOf doe, dayOf doe) := rfl
  rw [hfields]
  simp only [daysFromCivil, h3]
  have hyy : era * 400 + (yoeOf doe : Int) + (if monthOf doe ≤ 2 then 1 else 0)
      - (if monthOf doe ≤ 2 then 1 else 0) = era * 400 + yoeOf doe := by ring
  rw [hyy]
  have hdiv : (era * 400 + (yoeOf doe : Int)) / 400 = era := by omega
  have hmod : ((era * 400 + (yoeOf doe : Int)) % 400).toNat = yoeOf doe := by omega
  rw [hdiv, hmod]
  omega

/-- Gregorian leap-year rule (used by Python `datetime` / numpy). -/
def gregLeap (y : Int) : Bool :=
  decide (y % 4 = 0 ∧ (y % 100 ≠ 0 ∨ y % 400 = 0))

/-- Julian leap-year rule as cftime implements it with `has_year_zero=False`
(years below zero are shifted by one before the test). -/
def julLeap (y : Int) : Bool :=
  decide ((if y < 0 then y + 1 else y) % 4 = 0)

/-- Length of month `m` (1..12); `leap` selects February's length. -/
def monthLen (leap : Bool) (m : Nat) : Nat :=
  match m with
  | 1 => 31 | 2 => if leap then 29 else 28 | 3 => 31 | 4 => 30
  | 5 => 31 | 6 => 30 | 7 => 31 | 8 => 31 | 9 => 30 | 10 => 31
  | 11 => 30 | 12 => 31 | _ => 0


/-- A 366-day year-of-era span forces the (era-relative) Gregorian leap
pattern for the following year. -/
theorem span366 (doe : Nat) (h : doe ≤ 146096) (h365 : doyOf doe = 365) :
    (yoeOf doe = 399) ∨
      ((yoeOf doe + 1) % 4 = 0 ∧ (yoeOf doe + 1) % 100 ≠ 0) := by
  have h0 : dpred 0 ≤ doe := by simp [dpred]
  have hle : dpred (yoeOf doe) ≤ doe := lastLE_property dpred doe 399 h0
  have hb : yoeOf doe ≤ 399 := yoe_le doe
  have hdoy : doe - dpred (yoeOf doe) = 365 := h365
  rcases Nat.lt_or_ge (yoeOf doe) 399 with hlt | hge
  · have hgt : doe < dpred (yoeOf doe + 1) := lastLE_succ_gt dpred doe 399 hlt
    have hkey : dpred (yoeOf doe) + 366 ≤ dpred (yoeOf doe + 1) := by omega
    unfold dpred at hkey
    refine Or.inr ⟨by omega, by omega⟩
  · exact Or.inl (Nat.le_antisymm hb hge)

/-- Day-of-month bound for the eleven shifted months other than February. -/
theorem day_le_monthLen_aux (b : Bool) (mp doy : Nat) (hmp : mp ≤ 10)
    (hm1 : mcum mp ≤ doy) (hm2 : doy < mcum (mp + 1)) :
    doy - mcum mp + 1 ≤ monthLen b (if mp < 10 then mp + 3 else mp - 9) := by
  interval_cases mp <;> simp [mcum, monthLen] at * <;> omega

/-- The extracted civil date is a valid Gregorian date: month in range, day in
range for that month and year (February respecting the leap rule). -/
theorem fieldsOfDays_valid (z : Int) :
    1 ≤ (fieldsOfDays z).2.1 ∧ (fieldsOfDays z).2.1 ≤ 12 ∧
    1 ≤ (fieldsOfDays z).2.2 ∧
    (fieldsOfDays z).2.2 ≤ monthLen (gregLeap (fieldsOfDays z).1) (fieldsOfDays z).2.1 := by
  have hdoe : ((z + 719468) % 146097).toNat ≤ 146096 := by omega
  set era := (z + 719468) / 146097 with heradef
  set doe := ((z + 719468) % 146097).toNat with hdoedef
  show 1 ≤ monthOf doe ∧ monthOf doe ≤ 12 ∧ 1 ≤ dayOf doe ∧
    dayOf doe ≤ monthLen
      (gregLeap (era * 400 + yoeOf doe + (if monthOf doe ≤ 2 then 1 else 0))) (monthOf doe)
  obtain ⟨h1, hdoy⟩ := year_reconstruct doe hdoe
  have h2 := day_reconstruct doe
  have h4 := monthOf_le2_iff doe
  have hmp : mpOf doe ≤ 11 := mp_le doe
  have hyoe : yoeOf doe ≤ 399 := yoe_le doe
  have hmle : mcum (mpOf doe) ≤ doyOf doe := by
    have h0 : mcum 0 ≤ doyOf doe := by simp [mcum]
    exact lastLE_property mcum (doyOf doe) 11 h0
  have hday : dayOf doe = doyOf doe - mcum (mpOf doe) + 1 := rfl
  have hmon : monthOf doe = if mpOf doe < 10 then mpOf doe + 3 else mpOf doe - 9 := rfl
  have hm1 : 1 ≤ monthOf doe := by rw [hmon]; split <;> omega
  have hm12 : monthOf doe ≤ 12 := by rw [hmon]; split <;> omega
  have hd1 : 1 ≤ dayOf doe := by rw [hday]; omega
  refine ⟨hm1, hm12, hd1, ?_⟩
  by_cases hfeb : mpOf doe = 11
  · -- February: day at most 29, and 29 only in a Gregorian leap year
    have hm2 : monthOf doe = 2 := by rw [hmon, hfeb]; decide
    have hc337 : mcum 11 = 337 := by decide
    have hdayle : dayOf doe ≤ 29 := by
      rw [hday, hfeb, hc337]
      omega
    rw [hm2, if_pos (by decide : (2 : Nat) ≤ 2)]
    by_cases h29 : dayOf doe = 29
    · have h365 : doyOf doe = 365 := by
        rw [hday, hfeb, hc337] at h29
        omega
      have hleap : gregLeap (era * 400 + (yoeOf doe : Int) + 1) = true := by
        unfold gregLeap
        rcases span366 doe hdoe h365 with h399 | ⟨hl4, hl100⟩
        · rw [h399]
          have : (era * 400 + (399 : Int) + 1) % 4 = 0 ∧
              (era * 400 + (399 : Int) + 1) % 400 = 0 := by omega
          simp [this.1, this.2]
        · have : (era * 400 + (yoeOf doe : Int) + 1) % 4 = 0 ∧
              (era * 400 + (yoeOf doe : Int) + 1) % 100 ≠ 0 := by omega
          simp [this.1, this.2]
      rw [hleap]
      simp [monthLen]
      omega
    · have h28 : dayOf doe ≤ 28 := by omega
      have : monthLen (gregLeap (era * 400 + (yoeOf doe : Int) + 1)) 2 =
          if gregLeap (era * 400 + (yoeOf doe : Int) + 1) then 29 else 28 := rfl
      rw [this]
      split <;> omega
  · -- months other than February: fixed lengths, independent of the year
    have hub : mpOf doe ≤ 10 := by omega
    have hlt11 : mpOf doe < 11 := by omega
    have hup : doyOf doe < mcum (mpOf doe + 1) :=
      lastLE_succ_gt mcum (doyOf doe) 11 hlt11
    have := day_le_monthLen_aux
      (gregLeap (era * 400 + yoeOf doe + (if monthOf doe ≤ 2 then 1 else 0)))
      (mpOf doe) (doyOf doe) hub hmle hup
    rw [hday, hmon]
    exact this

/-- Calendar fields of an `Int` timestamp (seconds since epoch): what numpy's
`.dt.year`, `.dt.month`, ..., `.dt.second` accessors return. -/
def fieldsOfSeconds (t : Int) : CalFields :=
  let sod := (t % 86400).toNat
  let ymd := fieldsOfDays (t / 86400)
  ⟨ymd.1, ymd.2.1, ymd.2.2, sod / 3600, sod % 3600 / 60, sod % 60⟩

/-- `Int` timestamp of a field record: `numpy.datetime64(datetime(...))`. -/
def secondsOfFields (f : CalFields) : Int :=
  86400 * daysFromCivil f.year f.month f.day
    + ((3600 * f.hour + 60 * f.minute + f.second : Nat) : Int)

theorem secondsOfFields_fieldsOfSeconds (t : Int) :
    secondsOfFields (fieldsOfSeconds t) = t := by
  have hd := daysFromCivil_fieldsOfDays (t / 86400)
  show 86400 * daysFromCivil (fieldsOfDays (t / 86400)).1
      (fieldsOfDays (t / 86400)).2.1 (fieldsOfDays (t / 86400)).2.2
    + ((3600 * ((t % 86400).toNat / 3600) + 60 * ((t % 86400).toNat % 3600 / 60)
        + (t % 86400).toNat % 60 : Nat) : Int) = t
  rw [hd]
  omega

/-- Validity check of Python's `datetime(year, month, day, hour, minute,
second)` constructor (raises `ValueError` outside these ranges). -/
def pyDatetimeValid (f : CalFields) : Bool :=
  decide (1 ≤ f.year ∧ f.year ≤ 9999 ∧ 1 ≤ f.month ∧ f.month ≤ 12 ∧
    1 ≤ f.day ∧ f.day ≤ monthLen (gregLeap f.year) f.month ∧
    f.hour ≤ 23 ∧ f.minute ≤ 59 ∧ f.second ≤ 59)

/-- Validity check of `cftime.DatetimeJulian(..., has_year_zero=False)`:
year zero does not exist and the date must exist in the Julian calendar. -/
def julianDatetimeValid (f : CalFields) : Bool :=
  decide (f.year ≠ 0 ∧ 1 ≤ f.month ∧ f.month ≤ 12 ∧
    1 ≤ f.day ∧ f.day ≤ monthLen (julLeap f.year) f.month ∧
    f.hour ≤ 23 ∧ f.minute ≤ 59 ∧ f.second ≤ 59)

/-- `UFSDataset._time2cftime`: convert an array of `numpy.datetime64` values
to `cftime.DatetimeJulian` objects by extracting the calendar fields of each
element and handing them to the `DatetimeJulian` constructor
(`has_year_zero=False`); the constructor raises on an invalid Julian date,
modelled by `none`. -/
def time2cftime (time : List Int) : Option (List CalFields) :=
  time.mapM (fun t =>
    let f := fieldsOfSeconds t
    if julianDatetimeValid f then some f else none)

/-- `UFSDataset._cftime2time`: convert an array of `cftime.DatetimeJulian`
objects to `numpy.datetime64` values by reading each element's stored fields
and handing them to Python's `datetime` constructor (which raises on an
invalid Gregorian date or a year outside 1..9999, modelled by `none`),
then linearizing with `numpy.datetime64`. -/
def cftime2time (cf : List CalFields) : Option (List Int) :=
  cf.mapM (fun c =>
    if pyDatetimeValid c then some (secondsOfFields c) else none)

/-- Extracted fields always carry in-range month, day and time of day. -/
theorem fieldsOfSeconds_ranges (t : Int) :
    1 ≤ (fieldsOfSeconds t).month ∧ (fieldsOfSeconds t).month ≤ 12 ∧
    1 ≤ (fieldsOfSeconds t).day ∧
    (fieldsOfSeconds t).day ≤ monthLen (gregLeap (fieldsOfSeconds t).year) (fieldsOfSeconds t).month ∧
    (fieldsOfSeconds t).hour ≤ 23 ∧ (fieldsOfSeconds t).minute ≤ 59 ∧
    (fieldsOfSeconds t).second ≤ 59 := by
  obtain ⟨h1, h2, h3, h4⟩ := fieldsOfDays_valid (t / 86400)
  have hsod : (t % 86400).toNat ≤ 86399 := by omega
  refine ⟨h1, h2, h3, h4, ?_, ?_, ?_⟩
  · show (t % 86400).toNat / 3600 ≤ 23
    omega
  · show (t % 86400).toNat % 3600 / 60 ≤ 59
    omega
  · show (t % 86400).toNat % 60 ≤ 59
    omega

/-- A valid Gregorian date with a positive year is a valid Julian date:
the Julian calendar has all the Gregorian leap years (and more). -/
theorem julian_of_greg_valid (f : CalFields) (hy : 1 ≤ f.year)
    (hm1 : 1 ≤ f.month) (hm2 : f.month ≤ 12) (hd1 : 1 ≤ f.day)
    (hd2 : f.day ≤ monthLen (gregLeap f.year) f.month)
    (hh : f.hour ≤ 23) (hmi : f.minute ≤ 59) (hs : f.second ≤ 59) :
    julianDatetimeValid f = true := by
  obtain ⟨y, mo, d, hr, mi, se⟩ := f
  simp only at hy hm1 hm2 hd1 hd2 hh hmi hs
  unfold julianDatetimeValid
  have hlen : monthLen (gregLeap y) mo ≤ monthLen (julLeap y) mo := by
    by_cases hfeb : mo = 2
    · subst hfeb
      by_cases hg : gregLeap y = true
      · have hj : julLeap y = true := by
          unfold gregLeap at hg
          unfold julLeap
          rw [if_neg (by omega : ¬ y < 0)]
          simp only [decide_eq_true_eq] at hg ⊢
          exact hg.1
        rw [hg, hj]
      · rw [Bool.not_eq_true] at hg
        rw [hg]
        cases julLeap y <;> simp [monthLen]
    · interval_cases mo <;> simp_all [monthLen]
  simp only [decide_eq_true_eq]
  exact ⟨by omega, hm1, hm2, hd1, by omega, hh, hmi, hs⟩

/-- Scalar core of the round trip: extraction of a timestamp whose Gregorian
year lies in Python's representable range yields fields accepted by both the
`DatetimeJulian` and the `datetime` constructors, and re-linearizing them
gives back the timestamp. -/
theorem fieldsOfSeconds_roundtrip_valid (t : Int)
    (hy1 : 1 ≤ (fieldsOfSeconds t).year) (hy2 : (fieldsOfSeconds t).year ≤ 9999) :
    julianDatetimeValid (fieldsOfSeconds t) = true ∧
    pyDatetimeValid (fieldsOfSeconds t) = true ∧
    secondsOfFields (fieldsOfSeconds t) = t := by
  obtain ⟨h1, h2, h3, h4, h5, h6, h7⟩ := fieldsOfSeconds_ranges t
  refine ⟨julian_of_greg_valid _ hy1 h1 h2 h3 h4 h5 h6 h7, ?_,
    secondsOfFields_fieldsOfSeconds t⟩
  unfold pyDatetimeValid
  simp only [decide_eq_true_eq]
  exact ⟨hy1, hy2, h1, h2, h3, h4, h5, h6, h7⟩

theorem time2cftime_cons (t : Int) (ts : List Int)
    (hjul : julianDatetimeValid (fieldsOfSeconds t) = true) :
    time2cftime (t :: ts) = (time2cftime ts).map (fun l => fieldsOfSeconds t :: l) := by
  simp only [time2cftime, List.mapM_cons, hjul, if_true]
  cases ts.mapM (fun t => let f := fieldsOfSeconds t;
      if julianDatetimeValid f then some f else none) <;> rfl

theorem cftime2time_cons (c : CalFields) (cf : List CalFields)
    (hpy : pyDatetimeValid c = true) :
    cftime2time (c :: cf) = (cftime2time cf).map (fun l => secondsOfFields c :: l) := by
  simp only [cftime2time, List.mapM_cons, hpy, if_true]
  cases cf.mapM (fun c => if pyDatetimeValid c then some (secondsOfFields c) else none) <;> rfl

/-- C4 (amended): `_cftime2time` after `_time2cftime` is the identity on
every array of second-resolution timestamps whose Gregorian years lie in
1..9999 (the range Python's `datetime` accepts; year 0 is additionally
rejected by `DatetimeJulian` with `has_year_zero=False`). -/
theorem time2cftime_cftime2time_roundtrip (ts : List Int)
    (h : ∀ t ∈ ts, 1 ≤ (fieldsOfSeconds t).year ∧ (fieldsOfSeconds t).year ≤ 9999) :
    (time2cftime ts).bind cftime2time = some ts := by
  induction ts with
  | nil => rfl
  | cons t ts ih =>
    obtain ⟨hy1, hy2⟩ := h t (List.mem_cons_self t ts)
    have hrest := ih (fun x hx => h x (List.mem_cons_of_mem t hx))
    obtain ⟨hjul, hpy, hsec⟩ := fieldsOfSeconds_roundtrip_valid t hy1 hy2
    rcases htc : time2cftime ts with _ | cfs
    · rw [htc] at hrest
      exact absurd hrest (by simp [Option.bind])
    · rw [htc] at hrest
      simp only [Option.some_bind] at hrest
      rw [time2cftime_cons t ts hjul, htc]
      simp only [Option.map_some', Option.some_bind]
      rw [cftime2time_cons _ _ hpy, hrest]
      simp [hsec]

/-! ## Path resolver (`replay_path` in `scripts/read_from_s3.py` and
`src/UFS2ARCO/replay_to_zarr_example.py`) -/

/-- Python's fixed-width zero-padded decimal format `f"{n:0wd}"` for a
non-negative integer. -/
def zeroPad (w n : Nat) : String :=
  let s := toString n
  String.mk (List.replicate (w - s.length) '0') ++ s

example : zeroPad 2 6 = "06" := by decide
example : zeroPad 2 12 = "12" := by decide
example : zeroPad 4 1994 = "1994" := by decide
example : zeroPad 2 123 = "123" := by decide

/-- The `YYYYMMDDHH` token `f"{date.year:04d}{date.month:02d}{date.day:02d}{date.hour:02d}"`
(equivalently `f"{date:%Y%m%d%H}"`). -/
def dateToken (d : CalFields) : String :=
  zeroPad 4 d.year.toNat ++ zeroPad 2 d.month ++ zeroPad 2 d.day ++ zeroPad 2 d.hour

/-- `replay_path`: enumerate the S3 object URIs for one DA cycle, one per
(file prefix, forecast hour) pair, prefix-major and hour-minor, under the
cycle directory `YYYY/MM/YYYYMMDDHH`. -/
def replay_path (date : CalFields) (fhrs : List Nat) (file_prefixes : List String) :
    List String :=
  let upper := "s3://noaa-ufs-gefsv13replay-pds/1deg"
  let this_dir := zeroPad 4 date.year.toNat ++ "/" ++ zeroPad 2 date.month ++ "/" ++ dateToken date
  let files := file_prefixes.bind (fun fp => fhrs.map (fun fhr =>
    fp ++ dateToken date ++ "_fhr" ++ zeroPad 2 fhr ++ "_control"))
  files.map (fun this_file => upper ++ "/" ++ this_dir ++ "/" ++ this_file)

/-- `cached_path`: the same URIs wrapped with fsspec's `simplecache::` layer. -/
def cached_path (date : CalFields) (fhrs : List Nat) (file_prefixes : List String) :
    List String :=
  (replay_path date fhrs file_prefixes).map (fun u => "simplecache::" ++ u)

example :
    replay_path ⟨1994, 1, 1, 0, 0, 0⟩ [0, 6] ["sfg_", "bfg_"] =
      ["s3://noaa-ufs-gefsv13replay-pds/1deg/1994/01/1994010100/sfg_1994010100_fhr00_control",
       "s3://noaa-ufs-gefsv13replay-pds/1deg/1994/01/1994010100/sfg_1994010100_fhr06_control",
       "s3://noaa-ufs-gefsv13replay-pds/1deg/1994/01/1994010100/bfg_1994010100_fhr00_control",
       "s3://noaa-ufs-gefsv13replay-pds/1deg/1994/01/1994010100/bfg_1994010100_fhr06_control"] := by
  decide

theorem bind_map_length {α β γ : Type} (g : α → β → γ) (ps : List α) (hs : List β) :
    (ps.bind fun p => hs.map (g p)).length = ps.length * hs.length := by
  induction ps with
  | nil => simp
  | cons p ps ih =>
    simp only [List.cons_bind, List.length_append, List.length_map, List.length_cons, ih]
    ring

theorem bind_map_get {α β γ : Type} (g : α → β → γ) (ps : List α) (hs : List β)
    (i j : Nat) (hi : i < ps.length) (hj : j < hs.length) :
    (ps.bind fun p => hs.map (g p)).get? (i * hs.length + j) =
      some (g (ps.get ⟨i, hi⟩) (hs.get ⟨j, hj⟩)) := by
  induction ps generalizing i with
  | nil => exact absurd hi (Nat.not_lt_zero i)
  | cons p ps ih =>
    rcases i with _ | i
    · simp only [List.cons_bind, Nat.zero_mul, Nat.zero_add]
      rw [List.get?_append (by simpa using hj)]
      rw [List.get?_map]
      rw [List.get?_eq_get hj]
      rfl
    · have hi' : i < ps.length := Nat.lt_of_succ_lt_succ hi
      have hidx : (i + 1) * hs.length + j = hs.length + (i * hs.length + j) := by ring
      simp only [List.cons_bind, hidx]
      rw [List.get?_append_right (by simp)]
      have : hs.length + (i * hs.length + j) - (hs.map (g p)).length = i * hs.length + j := by
        simp
      rw [this, ih i hi']
      rfl

/-- C2: the path resolver returns exactly one path per (prefix, lead hour)
pair, prefix-major and lead-minor, each of the form
`{prefix}{YYYYMMDDHH}_fhr{LL:02d}_control` under the cycle directory
`{root}/{YYYY}/{MM}/{YYYYMMDDHH}`, and is deterministic. -/
theorem replay_path_spec (date : CalFields) (fhrs : List Nat) (ps : List String)
    (i j : Nat) (hi : i < ps.length) (hj : j < fhrs.length) :
    (replay_path date fhrs ps).length = ps.length * fhrs.length ∧
    (replay_path date fhrs ps).get? (i * fhrs.length + j) =
      some ("s3://noaa-ufs-gefsv13replay-pds/1deg" ++ "/"
        ++ (zeroPad 4 date.year.toNat ++ "/" ++ zeroPad 2 date.month ++ "/" ++ dateToken date)
        ++ "/"
        ++ (ps.get ⟨i, hi⟩ ++ dateToken date ++ "_fhr" ++ zeroPad 2 (fhrs.get ⟨j, hj⟩) ++ "_control")) ∧
    replay_path date fhrs ps = replay_path date fhrs ps := by
  refine ⟨?_, ?_, rfl⟩
  · show ((ps.bind fun fp => fhrs.map fun fhr =>
        fp ++ dateToken date ++ "_fhr" ++ zeroPad 2 fhr ++ "_control").map _).length = _
    rw [List.length_map]
    exact bind_map_length _ ps fhrs
  · show ((ps.bind fun fp => fhrs.map fun fhr =>
        fp ++ dateToken date ++ "_fhr" ++ zeroPad 2 fhr ++ "_control").map _).get? _ = _
    rw [List.get?_map,
      bind_map_get (fun fp fhr => fp ++ dateToken date ++ "_fhr" ++ zeroPad 2 fhr ++ "_control")
        ps fhrs i j hi hj]
    rfl

/-- Witness for `replay_path_spec` at the cycle 1994-01-01T00, lead hours
`[0, 6]`, prefixes `["sfg_", "bfg_"]`, entry `(i, j) = (1, 1)`. -/
theorem replay_path_spec_witness :
    (replay_path ⟨1994, 1, 1, 0, 0, 0⟩ [0, 6] ["sfg_", "bfg_"]).length =
      (["sfg_", "bfg_"] : List String).length * ([0, 6] : List Nat).length ∧
    (replay_path ⟨1994, 1, 1, 0, 0, 0⟩ [0, 6] ["sfg_", "bfg_"]).get?
        (1 * ([0, 6] : List Nat).length + 1) =
      some "s3://noaa-ufs-gefsv13replay-pds/1deg/1994/01/1994010100/bfg_1994010100_fhr06_control" := by
  have h := replay_path_spec ⟨1994, 1, 1, 0, 0, 0⟩ [0, 6] ["sfg_", "bfg_"] 1 1
    (by decide) (by decide)
  refine ⟨h.1, ?_⟩
  rw [h.2.1]
  decide

/-! ## Configuration loading (`UFSDataset.__init__`, `FV3Dataset.__init__`) -/

/-- Value of the `file_prefixes` configuration key: the code accepts either a
bare string or a list of strings. -/
inductive PrefixSpec
  | str (s : String)
  | list (l : List String)
deriving DecidableEq, Repr

/-- One per-component YAML block, `none` for an absent key.  A chunk size is
an integer (`-1` is the whole-dimension sentinel).  `coords_path_out` may
appear in a file; whether the loader reads it is exactly what is at issue. -/
structure RawConfig where
  path_out : Option String
  forecast_hours : Option (List Nat)
  file_prefixes : Option PrefixSpec
  chunks_in : Option (List (String × Int))
  chunks_out : Option (List (String × Int))
  coords : Option (List String)
  data_vars : Option (List String)
  max_mem : Option String
  temp_store : Option String
  coords_path_out : Option String
deriving DecidableEq, Repr

/-- The attributes a constructed `UFSDataset` carries and its methods consult
(class-level defaults are `None`, overwritten by present config keys). -/
structure UFSState where
  zarr_name : String
  path_out : String
  forecast_hours : List Nat
  file_prefixes : List String
  chunks_in : Option (List (String × Int))
  chunks_out : Option (List (String × Int))
  coords : Option (List String)
  data_vars : Option (List String)
  max_mem : Option String
  temp_store : Option String
deriving DecidableEq, Repr

inductive InitError
  | keyError (msg : String)
  | typeError (msg : String)
deriving DecidableEq, Repr

/-- `UFSDataset.__init__`: required keys raise `KeyError` when absent;
optional keys fall back to the class default (`None`), warning for five of
them (`temp_store` silently); `max_mem` without `temp_store` raises
`KeyError`; a bare-string `file_prefixes` is wrapped into a list.
Returns the constructed attribute record and the warnings, in order. -/
def UFSDataset_init (zarrName : String) (cfg : RawConfig) :
    Except InitError (UFSState × List String) :=
  match cfg.path_out with
  | none => .error (.keyError "path_out")
  | some po =>
  match cfg.forecast_hours with
  | none => .error (.keyError "forecast_hours")
  | some fh =>
  match cfg.file_prefixes with
  | none => .error (.keyError "file_prefixes")
  | some fp =>
  let warnings :=
    (if cfg.chunks_in.isNone then ["Could not find chunks_in, using default."] else [])
    ++ (if cfg.chunks_out.isNone then ["Could not find chunks_out, using default."] else [])
    ++ (if cfg.coords.isNone then ["Could not find coords, will not store coordinate data"] else [])
    ++ (if cfg.data_vars.isNone then ["Could not find data_vars, will store all data variables"] else [])
    ++ (if cfg.max_mem.isNone then ["Could not find max_mem, will not use rechunker"] else [])
  if cfg.max_mem.isSome ∧ cfg.temp_store.isNone then
    .error (.keyError "Found max_mem but not temp_store, this will cause issues with rechunker")
  else
    .ok ({ zarr_name := zarrName
           path_out := po
           forecast_hours := fh
           file_prefixes := match fp with | .str s => [s] | .list l => l
           chunks_in := cfg.chunks_in
           chunks_out := cfg.chunks_out
           coords := cfg.coords
           data_vars := cfg.data_vars
           max_mem := cfg.max_mem
           temp_store := cfg.temp_store }, warnings)

/-- `FV3Dataset.__init__` (`src/UFS2ARCO/fv3dataset.py`): runs the base
initializer, sets `zarr_name` to `fv3.zarr`, then replaces an *empty* chunk
mapping by the FV3 default; `len(self.chunks_in)` on the `None` fallback
raises `TypeError`. -/
def FV3Dataset_init (cfg : RawConfig) : Except InitError (UFSState × List String) :=
  match UFSDataset_init "fv3.zarr" cfg with
  | .error e => .error e
  | .ok (st, ws) =>
    match st.chunks_in, st.chunks_out with
    | some ci, some co =>
      .ok ({ st with
              chunks_in := some (if ci.length != 0 then ci else
                [("pfull", 5), ("grid_yt", -1), ("grid_xt", -1)])
              chunks_out := some (if co.length != 0 then co else
                [("time", 1), ("pfull", 5), ("grid_yt", 30), ("grid_xt", 30)]) }, ws)
    | _, _ => .error (.typeError "object of type NoneType has no len()")

/-- `os.path.join` for a relative second component. -/
def pathJoin (a b : String) : String := a ++ "/" ++ b

/-- `UFSDataset.coords_path`: where the static coordinates are written. -/
def coords_path (st : UFSState) : String :=
  pathJoin (pathJoin st.path_out "coordinates") st.zarr_name

/-- `UFSDataset.forecast_path`: where the forecast data are written. -/
def forecast_path (st : UFSState) : String :=
  pathJoin (pathJoin st.path_out "forecast") st.zarr_name

/-! ## Store writer (`UFSDataset.store_dataset`, `_store_coordinates`,
`_store_data_vars`), modelled at the level of variable names.  A dataset is
its variable names plus the subset currently flagged as coordinates; the
writer's observable behaviour is the sequence of effects (warnings and
physical writes) and an optional raised error. -/

/-- An xarray dataset, reduced to variable names and which of them are
currently coordinates. -/
structure NDataset where
  vars : List String
  coords : List String
deriving DecidableEq, Repr

/-- `xds.data_vars`: the variables not flagged as coordinates. -/
def dataVarNames (ds : NDataset) : List String :=
  ds.vars.filter (fun v => !ds.coords.contains v)

/-- `xds.reset_coords()`: demote every coordinate to a plain data variable
(index coordinates are not part of this name-level model). -/
def reset_coords (ds : NDataset) : NDataset := { ds with coords := [] }

/-- `xds[names]`: keep the named variables, plus any coordinate variables. -/
def getitem (ds : NDataset) (names : List String) : NDataset :=
  { vars := ds.vars.filter (fun v => names.contains v || ds.coords.contains v)
    coords := ds.coords }

/-- `xds.set_coords(names)` once every name is known to be present: flag the
named variables as coordinates. -/
def set_coords (ds : NDataset) (names : List String) : NDataset :=
  { ds with coords := ds.coords ++ names.filter (fun n => !ds.coords.contains n) }

/-- `cds.isel(member=0).drop("member")`: drop the ensemble-member variable. -/
def dropMember (ds : NDataset) : NDataset :=
  { vars := ds.vars.filter (fun v => v != "member")
    coords := ds.coords.filter (fun v => v != "member") }

/-- Observable actions of one `store_dataset` run. -/
inductive StoreEffect
  | coordWrite (path : String) (varNames : List String)
  | dataWrite (path : String) (varNames : List String)
  | warnMissingVar (name : String)
deriving DecidableEq, Repr

/-- Errors the store writer can raise: the internal-consistency assertion
(AttributeError) is distinct from the user-facing KeyError. -/
inductive StoreError
  | attributeError (msg : String)
  | keyError (msg : String)
deriving DecidableEq, Repr

/-- `UFSDataset._store_coordinates`: assert the coordinate subset carries no
data variables (raising `AttributeError` before anything is written), then
write it once to the coordinate store. -/
def store_coordinates (st : UFSState) (cds : NDataset) :
    List StoreEffect × Option StoreError :=
  if dataVarNames cds ≠ [] then
    ([], some (.attributeError "we should not have any data variables in this dataset, but we found some."))
  else
    ([.coordWrite (coords_path st) cds.vars], none)

/-- `if "member" in cds: cds = cds.isel(member=0).drop("member")`. -/
def memberAdjust (ds : NDataset) : NDataset :=
  if ds.vars.contains "member" then dropMember ds else ds

/-- The coordinate subset assembled inside the branch: the configured
coordinate names present in the dataset, selected and flagged as
coordinates, with the ensemble `member` variable dropped. -/
def coordSubset (st : UFSState) (xds : NDataset) : NDataset :=
  let cs := (st.coords.getD []).filter (fun x => xds.vars.contains x)
  memberAdjust (set_coords (getitem xds cs) cs)

/-- Lines 196-201 of `store_dataset`: the write-once coordinate branch,
taken only when the coordinate store does not yet exist on the backing
filesystem (`fsDirs`) and the `coords` key was configured. -/
def coordStage (st : UFSState) (fsDirs : List String) (xds : NDataset) :
    List StoreEffect × Option StoreError :=
  if ¬ fsDirs.contains (coords_path st) ∧ st.coords.isSome then
    store_coordinates st (coordSubset st xds)
  else ([], none)

/-- Lines 203-215 of `store_dataset`: re-promote the three time fields to
coordinates (xarray's `set_coords` raises `KeyError` when one is absent),
select the configured data variables warning for each absent one, and write
through `_store_data_vars` to the forecast store. -/
def dataStage (st : UFSState) (xds : NDataset) :
    List StoreEffect × Option StoreError :=
  if (["time", "cftime", "ftime"].all (fun n => xds.vars.contains n)) then
    let xds2 := set_coords xds ["time", "cftime", "ftime"]
    match st.data_vars with
    | some dvs =>
      let missing := dvs.filter (fun dv => !xds2.vars.contains dv)
      let present := dvs.filter (fun dv => xds2.vars.contains dv)
      (missing.map StoreEffect.warnMissingVar
        ++ [.dataWrite (forecast_path st) (dataVarNames (getitem xds2 present))], none)
    | none => ([.dataWrite (forecast_path st) (dataVarNames xds2)], none)
  else ([], some (.keyError "set_coords: time, cftime and ftime must exist in the dataset"))

/-- `UFSDataset.store_dataset`: demote all coordinates, run the write-once
coordinate branch, then select and write the data variables.  Returns the
effects performed (in order) and the error, if one was raised, at the point
it aborted the run. -/
def store_dataset (st : UFSState) (fsDirs : List String) (xds : NDataset) :
    List StoreEffect × Option StoreError :=
  match coordStage st fsDirs (reset_coords xds) with
  | (ceffs, some e) => (ceffs, some e)
  | (ceffs, none) =>
    (ceffs ++ (dataStage st (reset_coords xds)).1, (dataStage st (reset_coords xds)).2)

/-- `UFSDataset._get_relevant_chunks`: copy the requested mapping and pop
every key that is not a dimension of the dataset (a Python dict preserves
insertion order, so the copy-and-pop is a filter on the key). -/
def get_relevant_chunks (dims : List String) (chunks : List (String × Int)) :
    List (String × Int) :=
  chunks.filter (fun kv => dims.contains kv.1)

/-- `UFSDataset._preprocess`: drop the redundant `pressfc` variable from a
single source file when it is a dynamics file, recognized by carrying any of
the fixed dynamics field names among its data variables. -/
def ufs_preprocess (xds : NDataset) : NDataset :=
  let dyn_vars := ["tmp", "ugrd", "vgrd", "spfh", "o3mr"]
  if (dataVarNames xds).contains "pressfc"
      && dyn_vars.any (fun v => (dataVarNames xds).contains v) then
    { vars := xds.vars.filter (fun v => v != "pressfc")
      coords := xds.coords.filter (fun v => v != "pressfc") }
  else xds

/-! ## FV3 time normalization (`FV3Dataset.open_dataset` after the merge),
modelled on the time axis of the merged dataset: the axis's dimension name,
its variables (cftime-, datetime64- or timedelta64-valued arrays) and which
of them are coordinates. -/

/-- A variable along the time axis. -/
inductive TArr
  | cf (vals : List CalFields)
  | np64 (vals : List Int)
  | tdelta (vals : List Int)
deriving DecidableEq, Repr

/-- The time axis of a dataset. -/
structure TimeDS where
  dimName : String
  arrays : List (String × TArr)
  coordNames : List String
deriving DecidableEq, Repr

/-- `xds.rename({old: new})` restricted to the time axis. -/
def renameVar (ds : TimeDS) (old new : String) : TimeDS :=
  { dimName := if ds.dimName = old then new else ds.dimName
    arrays := ds.arrays.map (fun p => (if p.1 = old then new else p.1, p.2))
    coordNames := ds.coordNames.map (fun n => if n = old then new else n) }

/-- `xds[name] = DataArray(...)`: add or replace a (non-coordinate)
variable. -/
def assignVar (ds : TimeDS) (name : String) (v : TArr) : TimeDS :=
  if (ds.arrays.map Prod.fst).contains name then
    { ds with arrays := ds.arrays.map (fun p => if p.1 = name then (name, v) else p) }
  else
    { ds with arrays := ds.arrays ++ [(name, v)] }

/-- `xds.swap_dims({old: new})`: `new` becomes the indexing dimension (and
thereby an index coordinate); the old dimension's variable stays behind as a
non-indexing coordinate. -/
def swapDims (ds : TimeDS) (old new : String) : TimeDS :=
  if ds.dimName = old then
    { ds with
      dimName := new
      coordNames := if ds.coordNames.contains new then ds.coordNames
        else ds.coordNames ++ [new] }
  else ds

/-- `xds.set_coords(names)` on the time axis. -/
def setCoordNames (ds : TimeDS) (names : List String) : TimeDS :=
  { ds with coordNames := ds.coordNames ++ names.filter (fun n => !ds.coordNames.contains n) }

def lookupArr (ds : TimeDS) (name : String) : Option TArr := ds.arrays.lookup name

/-- The time-handling block of `FV3Dataset.open_dataset` (after the merged
read): rename `time` to `cftime`, convert it with `_cftime2time` (which
raises, modelled by `none`, on fields Python's `datetime` rejects), assign
the absolute `time` and the lead-time `ftime = time - numpy.datetime64(cycle)`,
swap the indexing dimension over to `time`, and flag `cftime` and `ftime` as
coordinates. -/
def fv3_open_dataset_time (raw : TimeDS) (cycle : CalFields) : Option TimeDS :=
  let ds := renameVar raw "time" "cftime"
  match lookupArr ds "cftime" with
  | some (TArr.cf cfs) =>
    match cftime2time cfs with
    | some time =>
      let ds := assignVar ds "time" (TArr.np64 time)
      let ds := assignVar ds "ftime"
        (TArr.tdelta (time.map (fun t => t - secondsOfFields cycle)))
      let ds := swapDims ds "cftime" "time"
      some (setCoordNames ds ["cftime", "ftime"])
    | none => none
  | _ => none

theorem lookup_cons_self {β : Type} (k : String) (v : β) (rest : List (String × β)) :
    List.lookup k ((k, v) :: rest) = some v := by
  simp [List.lookup]

theorem lookup_cons_ne {β : Type} (k a : String) (v : β) (rest : List (String × β))
    (h : (k == a) = false) :
    List.lookup k ((a, v) :: rest) = List.lookup k rest := by
  simp [List.lookup, h]

/-- C7: the effective chunk mapping keeps exactly the requested keys that are
dataset dimensions, in order, each still bound to its requested size. -/
theorem get_relevant_chunks_spec (dims : List String) (chunks : List (String × Int))
    (k : String) :
    (get_relevant_chunks dims chunks).map Prod.fst =
      (chunks.map Prod.fst).filter (fun key => dims.contains key) ∧
    (get_relevant_chunks dims chunks).lookup k =
      (if dims.contains k then chunks.lookup k else none) := by
  constructor
  · induction chunks with
    | nil => rfl
    | cons a chunks ih =>
      by_cases h : a.1 ∈ dims <;> simp_all [get_relevant_chunks, List.filter_cons]
  · induction chunks with
    | nil => simp [get_relevant_chunks]
    | cons a chunks ih =>
      obtain ⟨ak, av⟩ := a
      have hcons : get_relevant_chunks dims ((ak, av) :: chunks) =
          if dims.contains ak then (ak, av) :: get_relevant_chunks dims chunks
          else get_relevant_chunks dims chunks := by
        simp [get_relevant_chunks, List.filter_cons]
      rw [hcons]
      by_cases hmem : dims.contains ak = true
      · rw [if_pos hmem]
        by_cases hk : k = ak
        · subst hk
          rw [lookup_cons_self, lookup_cons_self, if_pos hmem]
        · have hbeq : (k == ak) = false := by simp [hk]
          rw [lookup_cons_ne _ _ _ _ hbeq, lookup_cons_ne _ _ _ _ hbeq, ih]
      · rw [if_neg hmem, ih]
        by_cases hk : k = ak
        · subst hk
          have hnot : ¬ k ∈ dims := by simpa using hmem
          simp [hnot]
        · have hbeq : (k == ak) = false := by simp [hk]
          rw [lookup_cons_ne _ _ _ _ hbeq]

/-- C8: `_preprocess` drops `pressfc` exactly when the file carries it among
its data variables together with at least one dynamics field name; any other
file passes through unchanged. -/
theorem ufs_preprocess_spec (xds : NDataset) (v : String) :
    (v ∈ (ufs_preprocess xds).vars ↔
      (v ∈ xds.vars ∧ ¬(v = "pressfc" ∧ "pressfc" ∈ dataVarNames xds ∧
        ∃ d ∈ (["tmp", "ugrd", "vgrd", "spfh", "o3mr"] : List String), d ∈ dataVarNames xds))) ∧
    (v ∈ (ufs_preprocess xds).coords ↔
      (v ∈ xds.coords ∧ ¬(v = "pressfc" ∧ "pressfc" ∈ dataVarNames xds ∧
        ∃ d ∈ (["tmp", "ugrd", "vgrd", "spfh", "o3mr"] : List String), d ∈ dataVarNames xds))) ∧
    (¬("pressfc" ∈ dataVarNames xds ∧
        ∃ d ∈ (["tmp", "ugrd", "vgrd", "spfh", "o3mr"] : List String), d ∈ dataVarNames xds) →
      ufs_preprocess xds = xds) := by
  unfold ufs_preprocess
  by_cases hc : ((dataVarNames xds).contains "pressfc"
      && ["tmp", "ugrd", "vgrd", "spfh", "o3mr"].any (fun v => (dataVarNames xds).contains v)) = true
  · have hprop : "pressfc" ∈ dataVarNames xds ∧
        ∃ d ∈ (["tmp", "ugrd", "vgrd", "spfh", "o3mr"] : List String), d ∈ dataVarNames xds := by
      simpa [List.any_eq_true] using hc
    rw [if_pos hc]
    refine ⟨?_, ?_, fun hno => absurd hprop hno⟩
    · simp only [List.mem_filter, bne_iff_ne]
      constructor
      · rintro ⟨hv, hne⟩
        exact ⟨hv, fun hbad => hne hbad.1⟩
      · rintro ⟨hv, hne⟩
        refine ⟨hv, fun heq => hne ⟨heq, hprop⟩⟩
    · simp only [List.mem_filter, bne_iff_ne]
      constructor
      · rintro ⟨hv, hne⟩
        exact ⟨hv, fun hbad => hne hbad.1⟩
      · rintro ⟨hv, hne⟩
        refine ⟨hv, fun heq => hne ⟨heq, hprop⟩⟩
  · have hprop : ¬("pressfc" ∈ dataVarNames xds ∧
        ∃ d ∈ (["tmp", "ugrd", "vgrd", "spfh", "o3mr"] : List String), d ∈ dataVarNames xds) := by
      intro hcontra
      exact hc (by simpa [List.any_eq_true] using hcontra)
    rw [if_neg hc]
    exact ⟨⟨fun hv => ⟨hv, fun hbad => hprop hbad.2⟩, fun h => h.1⟩,
      ⟨fun hv => ⟨hv, fun hbad => hprop hbad.2⟩, fun h => h.1⟩,
      fun _ => rfl⟩

/-- Witness for `ufs_preprocess_spec`: a physics-only file (no dynamics
fields) keeps its `pressfc` variable and is returned unchanged. -/
theorem ufs_preprocess_spec_witness :
    ufs_preprocess ⟨["pressfc", "soilm"], []⟩ = ⟨["pressfc", "soilm"], []⟩ :=
  (ufs_preprocess_spec ⟨["pressfc", "soilm"], []⟩ "pressfc").2.2 (by decide)

/-- C5: `_store_coordinates` raises the internal-consistency `AttributeError`
(not the user-facing `KeyError`) when the coordinate subset still carries a
data variable, and performs no write at all. -/
theorem store_coordinates_assert (st : UFSState) (cds : NDataset)
    (h : dataVarNames cds ≠ []) :
    store_coordinates st cds =
      ([], some (.attributeError
        "we should not have any data variables in this dataset, but we found some.")) := by
  unfold store_coordinates
  rw [if_pos h]

/-- Witness for `store_coordinates_assert`: a subset holding the data
variable `tmp` aborts with the assertion error and writes nothing. -/
theorem store_coordinates_assert_witness :
    store_coordinates
      ⟨"fv3.zarr", "out", [0, 6], ["bfg_"], none, none, some ["phalf"], none, none, none⟩
      ⟨["phalf", "tmp"], ["phalf"]⟩ =
      ([], some (.attributeError
        "we should not have any data variables in this dataset, but we found some.")) :=
  store_coordinates_assert
    ⟨"fv3.zarr", "out", [0, 6], ["bfg_"], none, none, some ["phalf"], none, none, none⟩
    ⟨["phalf", "tmp"], ["phalf"]⟩ (by decide)


theorem dataVarNames_nil_of_subset (ds : NDataset)
    (h : ∀ v ∈ ds.vars, v ∈ ds.coords) : dataVarNames ds = [] := by
  unfold dataVarNames
  rw [List.filter_eq_nil]
  intro v hv
  simp [h v hv]

/-- The subset assembled in the coordinate branch has no data variables:
every selected variable is flagged as a coordinate. -/
theorem dataVarNames_member_set (xds : NDataset) (hx : xds.coords = [])
    (cs : List String) :
    dataVarNames (memberAdjust (set_coords (getitem xds cs) cs)) = [] := by
  apply dataVarNames_nil_of_subset
  intro v hv
  have hvars : ∀ w, w ∈ (set_coords (getitem xds cs) cs).vars → w ∈ cs := by
    intro w hw
    simp only [set_coords, getitem, hx, List.mem_filter] at hw
    rcases hw with ⟨_, hor⟩
    simpa using hor
  have hcoords : (set_coords (getitem xds cs) cs).coords = cs := by
    simp [set_coords, getitem, hx]
  unfold memberAdjust at hv ⊢
  by_cases hm : (set_coords (getitem xds cs) cs).vars.contains "member" = true
  · rw [if_pos hm] at hv ⊢
    simp only [dropMember, List.mem_filter] at hv ⊢
    exact ⟨by rw [hcoords]; exact hvars v hv.1, hv.2⟩
  · rw [if_neg hm] at hv ⊢
    rw [hcoords]
    exact hvars v hv

theorem dataVarNames_coordSubset (st : UFSState) (xds : NDataset)
    (hx : xds.coords = []) : dataVarNames (coordSubset st xds) = [] :=
  dataVarNames_member_set xds hx _

/-- Inside the coordinate branch the selected subset never carries a data
variable, so the write-once branch always reaches the physical write. -/
theorem coordStage_write (st : UFSState) (fs : List String) (xds : NDataset)
    (hx : xds.coords = [])
    (htaken : ¬ fs.contains (coords_path st) ∧ st.coords.isSome) :
    coordStage st fs xds =
      ([StoreEffect.coordWrite (coords_path st) (coordSubset st xds).vars], none) := by
  unfold coordStage
  rw [if_pos htaken]
  unfold store_coordinates
  rw [if_neg (by simp [dataVarNames_coordSubset st xds hx])]

theorem coordStage_skip (st : UFSState) (fs : List String) (xds : NDataset)
    (hnot : ¬(¬ fs.contains (coords_path st) ∧ st.coords.isSome)) :
    coordStage st fs xds = ([], none) := by
  unfold coordStage
  rw [if_neg hnot]

theorem dataStage_no_coordWrite (st : UFSState) (xds : NDataset) :
    ∀ p vs, StoreEffect.coordWrite p vs ∉ (dataStage st xds).1 := by
  intro p vs
  unfold dataStage
  split
  · cases hdv : st.data_vars <;> simp [hdv]
  · simp

/-- C1 (amended): `store_dataset` performs a coordinate-store write exactly
when the coordinate store location does not already exist on the backing
filesystem AND the `coords` key was configured (is not `None`) — an empty
configured list still triggers a (vacuous) write; in particular a second
invocation against an already-existing coordinate store performs no
coordinate write. -/
theorem store_dataset_coord_gate (st : UFSState) (fs : List String) (xds : NDataset) :
    ((∃ p vs, StoreEffect.coordWrite p vs ∈ (store_dataset st fs xds).1) ↔
      (¬ fs.contains (coords_path st) ∧ st.coords.isSome)) ∧
    (fs.contains (coords_path st) = true →
      ∀ p vs, StoreEffect.coordWrite p vs ∉ (store_dataset st fs xds).1) := by
  have hnocw := dataStage_no_coordWrite st (reset_coords xds)
  by_cases hcond : ¬ fs.contains (coords_path st) ∧ st.coords.isSome
  · have hw := coordStage_write st fs (reset_coords xds) rfl hcond
    have hstore : store_dataset st fs xds =
        ([StoreEffect.coordWrite (coords_path st) (coordSubset st (reset_coords xds)).vars]
            ++ (dataStage st (reset_coords xds)).1,
          (dataStage st (reset_coords xds)).2) := by
      unfold store_dataset
      rw [hw]
    rw [hstore]
    constructor
    · constructor
      · intro _
        exact hcond
      · intro _
        exact ⟨coords_path st, (coordSubset st (reset_coords xds)).vars, by simp⟩
    · intro hmem
      exact absurd hmem (by simpa using hcond.1)
  · have hw := coordStage_skip st fs (reset_coords xds) hcond
    have hstore : store_dataset st fs xds =
        ((dataStage st (reset_coords xds)).1, (dataStage st (reset_coords xds)).2) := by
      unfold store_dataset
      rw [hw]
      simp
    rw [hstore]
    constructor
    · constructor
      · rintro ⟨p, vs, hmem⟩
        exact absurd hmem (hnocw p vs)
      · intro hc
        exact absurd hc hcond
    · intro _ p vs
      exact hnocw p vs

/-- Witness for `store_dataset_coord_gate`: with a pre-existing coordinate
store, a second `store_dataset` run emits no coordinate write. -/
theorem store_dataset_coord_gate_witness :
    ∀ p vs, StoreEffect.coordWrite p vs ∉
      (store_dataset
        ⟨"fv3.zarr", "out", [0, 6], ["bfg_"], none, none, some ["phalf"], none, none, none⟩
        ["out/coordinates/fv3.zarr"]
        ⟨["time", "cftime", "ftime", "tmp", "phalf"], ["phalf"]⟩).1 :=
  (store_dataset_coord_gate
    ⟨"fv3.zarr", "out", [0, 6], ["bfg_"], none, none, some ["phalf"], none, none, none⟩
    ["out/coordinates/fv3.zarr"]
    ⟨["time", "cftime", "ftime", "tmp", "phalf"], ["phalf"]⟩).2 (by decide)

/-- C1 counterexample: with `coords` configured as the *empty* list (so the
configuration lists no coordinate variable name at all) and no pre-existing
store, `store_dataset` still executes the coordinate-store write (an empty
one), refuting the claim's "AND the Configuration lists at least one
coordinate variable name". -/
theorem store_dataset_coord_gate_counterexample :
    store_dataset
      ⟨"fv3.zarr", "out", [0, 6], ["bfg_"], none, none, some [], none, none, none⟩
      [] ⟨["time", "cftime", "ftime", "tmp"], []⟩ =
      ([StoreEffect.coordWrite "out/coordinates/fv3.zarr" [],
        StoreEffect.dataWrite "out/forecast/fv3.zarr" ["tmp"]], none) ∧
    (UFSState.coords
      ⟨"fv3.zarr", "out", [0, 6], ["bfg_"], none, none, some [], none, none, none⟩) =
        some ([] : List String) := by
  decide

theorem cftime2time_all_valid (cfs : List CalFields)
    (h : ∀ c ∈ cfs, pyDatetimeValid c = true) :
    cftime2time cfs = some (cfs.map secondsOfFields) := by
  induction cfs with
  | nil => rfl
  | cons c cfs ih =>
    have hc := h c (List.mem_cons_self c cfs)
    have hrest := ih (fun x hx => h x (List.mem_cons_of_mem c hx))
    simp only [cftime2time, List.mapM_cons, hc, if_true] at hrest ⊢
    rw [hrest]
    rfl

/-- C3: on the reader's merged time axis (raw dimension `time` holding the
decoded Julian-calendar timestamps), the FV3 time normalization produces a
dataset whose time axis carries exactly the coordinates `time` (the absolute
timestamps, now the indexing dimension), `cftime` (the raw timestamps,
retained as a non-indexing coordinate) and `ftime` (non-indexing), with
`ftime` elementwise equal to `time` minus the cycle timestamp. -/
theorem fv3_time_axis (cfs : List CalFields) (cycle : CalFields)
    (h : ∀ c ∈ cfs, pyDatetimeValid c = true) :
    ∃ ds, fv3_open_dataset_time ⟨"time", [("time", TArr.cf cfs)], ["time"]⟩ cycle = some ds ∧
      ds.dimName = "time" ∧
      ds.coordNames = ["cftime", "time", "ftime"] ∧
      lookupArr ds "cftime" = some (TArr.cf cfs) ∧
      lookupArr ds "time" = some (TArr.np64 (cfs.map secondsOfFields)) ∧
      lookupArr ds "ftime" =
        some (TArr.tdelta ((cfs.map secondsOfFields).map
          (fun t => t - secondsOfFields cycle))) := by
  refine ⟨⟨"time",
    [("cftime", TArr.cf cfs), ("time", TArr.np64 (cfs.map secondsOfFields)),
     ("ftime", TArr.tdelta ((cfs.map secondsOfFields).map (fun t => t - secondsOfFields cycle)))],
    ["cftime", "time", "ftime"]⟩, ?_, rfl, rfl, ?_, ?_, ?_⟩
  · have hlook : lookupArr (renameVar ⟨"time", [("time", TArr.cf cfs)], ["time"]⟩ "time" "cftime")
        "cftime" = some (TArr.cf cfs) := by
      simp [renameVar, lookupArr, List.lookup]
    simp only [fv3_open_dataset_time, hlook, cftime2time_all_valid cfs h]
    simp [renameVar, assignVar, swapDims, setCoordNames]
  · simp [lookupArr, List.lookup]
  · simp [lookupArr, List.lookup]
  · simp [lookupArr, List.lookup]

/-- Witness for `fv3_time_axis`: the 1994-01-01 cycle with output at hours 0
and 6 yields `ftime` values of 0 and 21600 seconds (0h and 6h). -/
theorem fv3_time_axis_witness :
    ∃ ds, fv3_open_dataset_time
        ⟨"time", [("time", TArr.cf [⟨1994, 1, 1, 0, 0, 0⟩, ⟨1994, 1, 1, 6, 0, 0⟩])], ["time"]⟩
        ⟨1994, 1, 1, 0, 0, 0⟩ = some ds ∧
      ds.dimName = "time" ∧
      ds.coordNames = ["cftime", "time", "ftime"] ∧
      lookupArr ds "ftime" = some (TArr.tdelta [0, 21600]) := by
  obtain ⟨ds, h1, h2, h3, _, _, h6⟩ :=
    fv3_time_axis [⟨1994, 1, 1, 0, 0, 0⟩, ⟨1994, 1, 1, 6, 0, 0⟩] ⟨1994, 1, 1, 0, 0, 0⟩
      (by decide)
  refine ⟨ds, h1, h2, h3, ?_⟩
  rw [h6]
  decide

/-- C4 counterexample: the timestamp `-62154086400` (the `datetime64` value
of 0000-06-01T00:00:00, a second-resolution timestamp with zero sub-second
component) does not round-trip: its Gregorian year is 0, which
`DatetimeJulian(..., has_year_zero=False)` rejects, so `_time2cftime`
raises instead of returning a value. -/
theorem time2cftime_roundtrip_counterexample :
    (time2cftime [-62154086400]).bind cftime2time ≠ some [-62154086400] ∧
    (fieldsOfSeconds (-62154086400)).second = 0 := by
  decide

/-- Witness for `time2cftime_cftime2time_roundtrip` at the timestamp array
`[757382400]` (1994-01-01T00:00:00). -/
theorem time2cftime_cftime2time_roundtrip_witness :
    (time2cftime [757382400]).bind cftime2time = some [757382400] :=
  time2cftime_cftime2time_roundtrip [757382400] (by decide)

theorem set_coords_vars (ds : NDataset) (names : List String) :
    (set_coords ds names).vars = ds.vars := rfl

theorem dataStage_some (st : UFSState) (xds : NDataset) (dvs : List String)
    (hdv : st.data_vars = some dvs)
    (ht : (["time", "cftime", "ftime"].all (fun n => xds.vars.contains n)) = true) :
    dataStage st xds =
      ((dvs.filter (fun dv => !(set_coords xds ["time", "cftime", "ftime"]).vars.contains dv)).map
          StoreEffect.warnMissingVar
        ++ [.dataWrite (forecast_path st)
            (dataVarNames (getitem (set_coords xds ["time", "cftime", "ftime"])
              (dvs.filter (fun dv =>
                (set_coords xds ["time", "cftime", "ftime"]).vars.contains dv))))], none) := by
  unfold dataStage
  rw [if_pos ht, hdv]

theorem dataStage_none (st : UFSState) (xds : NDataset)
    (hdv : st.data_vars = none)
    (ht : (["time", "cftime", "ftime"].all (fun n => xds.vars.contains n)) = true) :
    dataStage st xds =
      ([.dataWrite (forecast_path st)
          (dataVarNames (set_coords xds ["time", "cftime", "ftime"]))], none) := by
  unfold dataStage
  rw [if_pos ht, hdv]

theorem coordStage_no_dataWrite (st : UFSState) (fs : List String) (xds : NDataset)
    (hx : xds.coords = []) :
    ∀ p vs, StoreEffect.dataWrite p vs ∉ (coordStage st fs xds).1 := by
  intro p vs
  by_cases hcond : ¬ fs.contains (coords_path st) ∧ st.coords.isSome
  · rw [coordStage_write st fs xds hx hcond]
    simp
  · rw [coordStage_skip st fs xds hcond]
    simp

theorem coordStage_err_none (st : UFSState) (fs : List String) (xds : NDataset)
    (hx : xds.coords = []) : (coordStage st fs xds).2 = none := by
  by_cases hcond : ¬ fs.contains (coords_path st) ∧ st.coords.isSome
  · rw [coordStage_write st fs xds hx hcond]
  · rw [coordStage_skip st fs xds hcond]

theorem store_dataset_split (st : UFSState) (fs : List String) (xds : NDataset) :
    store_dataset st fs xds =
      ((coordStage st fs (reset_coords xds)).1 ++ (dataStage st (reset_coords xds)).1,
        (dataStage st (reset_coords xds)).2) := by
  have herr := coordStage_err_none st fs (reset_coords xds) rfl
  unfold store_dataset
  rcases hcs : coordStage st fs (reset_coords xds) with ⟨ceffs, cerr⟩
  rw [hcs] at herr
  simp at herr
  rw [herr]

/-- C6 (amended): missing optional keys among `chunks_in`, `chunks_out`,
`coords`, `data_vars`, `max_mem` each produce a non-fatal warning and fall
back to the class default, and loading succeeds (a missing `temp_store`
defaults silently; the separate fatal check `max_mem` present without
`temp_store` is excluded by hypothesis); at write time every configured data
variable absent from the dataset is warned about and skipped, never raised
on; and with `data_vars` omitted the writer writes exactly the data
variables present. -/
theorem soft_conditions_spec
    (z : String) (cfg : RawConfig) (po : String) (fh : List Nat) (fp : PrefixSpec)
    (hpo : cfg.path_out = some po) (hfh : cfg.forecast_hours = some fh)
    (hfp : cfg.file_prefixes = some fp)
    (hmt : ¬(cfg.max_mem.isSome ∧ cfg.temp_store.isNone))
    (st : UFSState) (fs : List String) (xds : NDataset)
    (ht : ((["time", "cftime", "ftime"] : List String).all
      (fun n => (reset_coords xds).vars.contains n)) = true) :
    (∃ stws, UFSDataset_init z cfg = .ok stws ∧
      (cfg.chunks_in = none → "Could not find chunks_in, using default." ∈ stws.2) ∧
      (cfg.chunks_out = none → "Could not find chunks_out, using default." ∈ stws.2) ∧
      (cfg.coords = none → "Could not find coords, will not store coordinate data" ∈ stws.2) ∧
      (cfg.data_vars = none → "Could not find data_vars, will store all data variables" ∈ stws.2) ∧
      (cfg.max_mem = none → "Could not find max_mem, will not use rechunker" ∈ stws.2)) ∧
    ((store_dataset st fs xds).2 = none) ∧
    (∀ dvs, st.data_vars = some dvs →
      ∀ dv ∈ dvs, (reset_coords xds).vars.contains dv = false →
        StoreEffect.warnMissingVar dv ∈ (store_dataset st fs xds).1 ∧
        (∀ p vs, StoreEffect.dataWrite p vs ∈ (store_dataset st fs xds).1 → dv ∉ vs)) ∧
    (st.data_vars = none →
      ∃ vs, StoreEffect.dataWrite (forecast_path st) vs ∈ (store_dataset st fs xds).1 ∧
        ∀ v, v ∈ vs ↔ (v ∈ (reset_coords xds).vars ∧
          v ∉ (["time", "cftime", "ftime"] : List String))) := by
  refine ⟨?_, ?_, ?_, ?_⟩
  · -- the loader succeeds and warns per missing optional key
    unfold UFSDataset_init
    rw [hpo, hfh, hfp]
    dsimp only
    rw [if_neg hmt]
    refine ⟨_, rfl, ?_, ?_, ?_, ?_, ?_⟩ <;> intro hnone <;> simp [hnone]
  · rw [store_dataset_split]
    cases hdv : st.data_vars with
    | some dvs => rw [dataStage_some st _ dvs hdv ht]
    | none => rw [dataStage_none st _ hdv ht]
  · intro dvs hdv dv hmemdv hmiss
    rw [store_dataset_split]
    rw [dataStage_some st _ dvs hdv ht]
    have hmiss2 : (!(set_coords (reset_coords xds) ["time", "cftime", "ftime"]).vars.contains dv)
        = true := by
      rw [set_coords_vars, hmiss]
      rfl
    constructor
    · simp only [List.mem_append]
      refine Or.inr (Or.inl ?_)
      exact List.mem_map_of_mem _ (List.mem_filter.mpr ⟨hmemdv, hmiss2⟩)
    · intro p vs hvs
      simp only [List.mem_append] at hvs
      rcases hvs with hvs | hvs
      · exact absurd hvs (coordStage_no_dataWrite st fs (reset_coords xds) rfl p vs)
      · simp only [List.mem_append, List.mem_map, List.mem_singleton] at hvs
        rcases hvs with ⟨_, _, hbad⟩ | hvs
        · exact absurd hbad (by simp)
        · have hvseq : vs = dataVarNames (getitem
              (set_coords (reset_coords xds) ["time", "cftime", "ftime"])
              (dvs.filter (fun dv =>
                (set_coords (reset_coords xds) ["time", "cftime", "ftime"]).vars.contains dv))) := by
            injection hvs with _ h2
          rw [hvseq]
          intro hdvmem
          have hmem2 : dv ∈ (reset_coords xds).vars := by
            have h1 : dv ∈ (getitem (set_coords (reset_coords xds) ["time", "cftime", "ftime"]) _).vars :=
              List.mem_filter.mp hdvmem |>.1
            exact List.mem_filter.mp h1 |>.1
          have hcontra : (reset_coords xds).vars.contains dv = true := by
            simpa using hmem2
          rw [hmiss] at hcontra
          exact Bool.noConfusion hcontra
  · intro hdv
    rw [store_dataset_split]
    rw [dataStage_none st _ hdv ht]
    refine ⟨dataVarNames (set_coords (reset_coords xds) ["time", "cftime", "ftime"]), by simp, ?_⟩
    intro v
    unfold dataVarNames
    rw [List.mem_filter]
    constructor
    · rintro ⟨hv, hnc⟩
      refine ⟨hv, ?_⟩
      intro hvmem
      have : v ∈ (set_coords (reset_coords xds) ["time", "cftime", "ftime"]).coords := by
        simp only [set_coords, reset_coords]
        simpa using hvmem
      simp [List.elem_iff, this] at hnc
    · rintro ⟨hv, hnmem⟩
      refine ⟨hv, ?_⟩
      have : v ∉ (set_coords (reset_coords xds) ["time", "cftime", "ftime"]).coords := by
        simp only [set_coords, reset_coords]
        simpa using hnmem
      simp [List.elem_iff, this]

/-- Witness for `soft_conditions_spec`: a run whose configuration omits
`data_vars` and whose state requests the absent variable `missing` finishes
without an error and warns about the absent variable. -/
theorem soft_conditions_spec_witness :
    (store_dataset
      ⟨"fv3.zarr", "out", [0, 6], ["bfg_"], none, none, none, some ["tmp", "missing"], none, none⟩
      [] ⟨["time", "cftime", "ftime", "tmp"], []⟩).2 = none ∧
    StoreEffect.warnMissingVar "missing" ∈
      (store_dataset
        ⟨"fv3.zarr", "out", [0, 6], ["bfg_"], none, none, none, some ["tmp", "missing"], none, none⟩
        [] ⟨["time", "cftime", "ftime", "tmp"], []⟩).1 := by
  have h := soft_conditions_spec "fv3.zarr"
    ⟨some "out", some [0, 6], some (.list ["bfg_"]), some [("pfull", 5)], some [("time", 1)],
      some ["phalf"], none, none, none, none⟩
    "out" [0, 6] (PrefixSpec.list ["bfg_"]) rfl rfl rfl (by decide)
    ⟨"fv3.zarr", "out", [0, 6], ["bfg_"], none, none, none, some ["tmp", "missing"], none, none⟩
    [] ⟨["time", "cftime", "ftime", "tmp"], []⟩ (by decide)
  exact ⟨h.2.1, (h.2.2.1 ["tmp", "missing"] rfl "missing" (by decide) (by decide)).1⟩

/-- C6 counterexample: a configuration whose only absent optional key is
`temp_store`, with `max_mem` present, makes loading raise `KeyError` — the
loader does not fall back with a warning, refuting "never raising" for
missing optional keys. -/
theorem soft_conditions_counterexample :
    UFSDataset_init "fv3.zarr"
      ⟨some "out", some [0, 6], some (.list ["bfg_"]), some [("pfull", 5)], some [("time", 1)],
        some ["phalf"], some ["tmp"], some "100MB", none, none⟩ =
      .error (.keyError
        "Found max_mem but not temp_store, this will cause issues with rechunker") := rfl

/-- C9 (amended): the loader never reads `coords_path_out` — two
configurations differing only in that key load identically — and the
coordinate store location is always the `coordinates` sibling of the
`forecast` tree under `path_out`. -/
theorem coords_path_spec (z : String) (cfg : RawConfig) (v : Option String)
    (st : UFSState) (ws : List String)
    (hok : UFSDataset_init z cfg = .ok (st, ws)) :
    coords_path st = st.path_out ++ "/coordinates/" ++ st.zarr_name ∧
    forecast_path st = st.path_out ++ "/forecast/" ++ st.zarr_name ∧
    UFSDataset_init z { cfg with coords_path_out := v } = UFSDataset_init z cfg := by
  refine ⟨?_, ?_, rfl⟩
  · show st.path_out ++ "/" ++ "coordinates" ++ "/" ++ st.zarr_name = _
    rw [String.append_assoc st.path_out, String.append_assoc st.path_out]
    rfl
  · show st.path_out ++ "/" ++ "forecast" ++ "/" ++ st.zarr_name = _
    rw [String.append_assoc st.path_out, String.append_assoc st.path_out]
    rfl

/-- Witness for `coords_path_spec` at a concrete loaded configuration. -/
theorem coords_path_spec_witness :
    coords_path
      ⟨"fv3.zarr", "out", [0, 6], ["bfg_"], some [("pfull", 5)], some [("time", 1)],
        some ["phalf"], some ["tmp"], none, none⟩ = "out" ++ "/coordinates/" ++ "fv3.zarr" :=
  (coords_path_spec "fv3.zarr"
    ⟨some "out", some [0, 6], some (.list ["bfg_"]), some [("pfull", 5)], some [("time", 1)],
      some ["phalf"], some ["tmp"], none, none, none⟩ none
    ⟨"fv3.zarr", "out", [0, 6], ["bfg_"], some [("pfull", 5)], some [("time", 1)],
      some ["phalf"], some ["tmp"], none, none⟩
    ["Could not find max_mem, will not use rechunker"] (by simp [UFSDataset_init])).1

/-- C9 counterexample: a configuration carrying `coords_path_out =
"/custom/coords.zarr"` still loads to a state whose coordinate store path is
the default `out/coordinates/fv3.zarr`, not the configured override. -/
theorem coords_path_out_ignored_counterexample :
    UFSDataset_init "fv3.zarr"
      ⟨some "out", some [0, 6], some (.list ["bfg_"]), some [("pfull", 5)], some [("time", 1)],
        some ["phalf"], some ["tmp"], none, none, some "/custom/coords.zarr"⟩ =
      .ok (⟨"fv3.zarr", "out", [0, 6], ["bfg_"], some [("pfull", 5)], some [("time", 1)],
        some ["phalf"], some ["tmp"], none, none⟩,
        ["Could not find max_mem, will not use rechunker"]) ∧
    coords_path
      ⟨"fv3.zarr", "out", [0, 6], ["bfg_"], some [("pfull", 5)], some [("time", 1)],
        some ["phalf"], some ["tmp"], none, none⟩ = "out/coordinates/fv3.zarr" ∧
    "out/coordinates/fv3.zarr" ≠ "/custom/coords.zarr" := by
  refine ⟨by simp [UFSDataset_init], by decide, by decide⟩

/-- `UFSDataset.open_dataset`'s path resolution: the configured `path_in`
callable applied to the cycle and the loaded attributes. -/
def open_dataset_fnames (pathIn : CalFields → List Nat → List String → List String)
    (st : UFSState) (cycle : CalFields) : List String :=
  pathIn cycle st.forecast_hours st.file_prefixes

/-- C10: a configuration giving `file_prefixes` as the bare string `s` loads
to exactly the same state (hence identical behaviour of every method,
including `open_dataset` path resolution) as the one-element list `[s]`, and
the constructed attribute is the list `[s]`. -/
theorem file_prefixes_normalization (z : String) (cfg : RawConfig) (s : String) :
    UFSDataset_init z { cfg with file_prefixes := some (PrefixSpec.str s) } =
      UFSDataset_init z { cfg with file_prefixes := some (PrefixSpec.list [s]) } ∧
    (∀ st ws, UFSDataset_init z { cfg with file_prefixes := some (PrefixSpec.str s) } =
        .ok (st, ws) → st.file_prefixes = [s]) ∧
    (∀ pathIn cycle st ws st2 ws2,
      UFSDataset_init z { cfg with file_prefixes := some (PrefixSpec.str s) } = .ok (st, ws) →
      UFSDataset_init z { cfg with file_prefixes := some (PrefixSpec.list [s]) } = .ok (st2, ws2) →
      open_dataset_fnames pathIn st cycle = open_dataset_fnames pathIn st2 cycle) := by
  have hmain : UFSDataset_init z { cfg with file_prefixes := some (PrefixSpec.str s) } =
      UFSDataset_init z { cfg with file_prefixes := some (PrefixSpec.list [s]) } := by
    unfold UFSDataset_init
    rcases cfg.path_out with _ | po <;> rcases cfg.forecast_hours with _ | fh <;> rfl
  refine ⟨hmain, ?_, ?_⟩
  · intro st ws hok
    unfold UFSDataset_init at hok
    rcases hpo : cfg.path_out with _ | po <;> rw [hpo] at hok
    · exact absurd hok (by simp)
    rcases hfh : cfg.forecast_hours with _ | fh <;> rw [hfh] at hok
    · exact absurd hok (by simp)
    dsimp only at hok
    by_cases hmm : cfg.max_mem.isSome = true ∧ cfg.temp_store.isNone = true
    · rw [if_pos hmm] at hok
      exact absurd hok (by simp)
    · rw [if_neg hmm] at hok
      simp only [Except.ok.injEq, Prod.mk.injEq] at hok
      rw [← hok.1]
  · intro pathIn cycle st ws st2 ws2 hok hok2
    rw [hmain] at hok
    rw [hok] at hok2
    simp only [Except.ok.injEq, Prod.mk.injEq] at hok2
    rw [hok2.1]

/-- Witness for `file_prefixes_normalization` at a concrete configuration:
the bare string prefix loads like its one-element wrapping and the attribute
is the list. -/
theorem file_prefixes_normalization_witness :
    UFSDataset_init "fv3.zarr"
      ⟨some "out", some [0, 6], some (.str "bfg_"), some [("pfull", 5)], some [("time", 1)],
        some ["phalf"], some ["tmp"], none, none, none⟩ =
      UFSDataset_init "fv3.zarr"
        ⟨some "out", some [0, 6], some (.list ["bfg_"]), some [("pfull", 5)], some [("time", 1)],
          some ["phalf"], some ["tmp"], none, none, none⟩ ∧
    (⟨"fv3.zarr", "out", [0, 6], ["bfg_"], some [("pfull", 5)], some [("time", 1)],
        some ["phalf"], some ["tmp"], none, none⟩ : UFSState).file_prefixes = ["bfg_"] := by
  have h := file_prefixes_normalization "fv3.zarr"
    ⟨some "out", some [0, 6], some (.list ["bfg_"]), some [("pfull", 5)], some [("time", 1)],
      some ["phalf"], some ["tmp"], none, none, none⟩ "bfg_"
  exact ⟨h.1, h.2.1
    ⟨"fv3.zarr", "out", [0, 6], ["bfg_"], some [("pfull", 5)], some [("time", 1)],
      some ["phalf"], some ["tmp"], none, none⟩
    ["Could not find max_mem, will not use rechunker"] (by simp [UFSDataset_init])⟩
